import Mathlib

/-!
Shallow embedding of the earthquake-news front-end (script.js and its map-enabled
variant) together with proofs about its data normalization and presentation
pipeline.  JavaScript numbers are modelled as exact rationals extended with NaN
and signed infinities; JS strings are Lean strings (lists of characters).
Rational values are always built with mkRat over integer arithmetic so that all
definitions evaluate inside the kernel.
-/

/-- Model of a JavaScript number: NaN, a signed infinity (neg = true for
negative infinity), or a finite value modelled as an exact rational. -/
inductive JNum where
  | nan
  | inf (neg : Bool)
  | val (q : Rat)
deriving DecidableEq, Repr

/-- JS unary minus on a number. -/
def JNum.neg : JNum → JNum
  | .nan => .nan
  | .inf b => .inf !b
  | .val q => .val (-q)

/-- JS truthiness of a number: 0 and NaN are falsy, everything else truthy. -/
def jsTruthy : JNum → Bool
  | .nan => false
  | .inf _ => true
  | .val q => decide (q ≠ 0)

/-- JS comparison a >= c against a finite constant c (NaN compares false). -/
def jsGe (a : JNum) (c : Rat) : Bool :=
  match a with
  | .nan => false
  | .inf neg => !neg
  | .val q => decide (c ≤ q)

/-- JS comparison a < b on numbers (any comparison with NaN is false). -/
def jsLt : JNum → JNum → Bool
  | .nan, _ => false
  | _, .nan => false
  | .inf na, .inf nb => na && !nb
  | .inf na, .val _ => na
  | .val _, .inf nb => !nb
  | .val a, .val b => decide (a < b)

/-- JS value as it can appear in a coordinate field of the feed: a number, a
string, undefined (absent field), or some other value. -/
inductive JVal where
  | num (n : JNum)
  | str (s : String)
  | undef
  | other
deriving DecidableEq, Repr

/-- Character of a decimal digit (0 ≤ d ≤ 9 in all uses). -/
def digitChar (d : Nat) : Char := Char.ofNat (48 + d)

/-- Numeric value of a decimal digit character. -/
def charVal (c : Char) : Nat := c.toNat - 48

/-- Decimal digit test. -/
def isDigit (c : Char) : Bool := decide ('0' ≤ c) && decide (c ≤ '9')

/-- Little-endian decimal digits of n, with fuel for structural recursion
(fuel ≥ n always holds at call sites, so the digits are complete). -/
def natDigitsAux : Nat → Nat → List Nat
  | 0, _ => []
  | fuel + 1, n => if n = 0 then [] else n % 10 :: natDigitsAux fuel (n / 10)

/-- Little-endian decimal digits of a natural number. -/
def natRevDigits (n : Nat) : List Nat := natDigitsAux n n

/-- Decimal string of a natural number, as JS Number.prototype.toString
produces for nonnegative integers. -/
def jsNatToString (n : Nat) : String :=
  if n = 0 then "0" else String.mk (((natRevDigits n).map digitChar).reverse)

/-- Decimal digits of the fractional part num/den (0 ≤ num < den), most
significant first, stopping at the exact expansion when it is finite.  The
fuel bounds the number of emitted digits; every value reachable from feed
data has a finite decimal expansion well below the fuel. -/
def fracDigitsAux : Nat → Nat → Nat → List Nat
  | 0, _, _ => []
  | fuel + 1, n, d => if n = 0 then [] else 10 * n / d :: fracDigitsAux fuel (10 * n % d) d

/-- Decimal rendering of a finite JS number (model of Number.prototype.toString
restricted to values with a finite decimal expansion, which covers every value
the feed or the parsers produce). -/
def jsRatToString (q : Rat) : String :=
  let intStr := jsNatToString (q.num.natAbs / q.den)
  let fr := fracDigitsAux 1100 (q.num.natAbs % q.den) q.den
  (if q < 0 then "-" else "") ++ intStr ++
    (if fr = [] then "" else "." ++ String.mk (fr.map digitChar))

/-- Model of JS String(n) / template-literal interpolation of a number. -/
def jsNumToString : JNum → String
  | .nan => "NaN"
  | .inf neg => if neg then "-Infinity" else "Infinity"
  | .val q => jsRatToString q

/-- Model of Number.prototype.toFixed(1): the integer n with n/10 closest to
the value (ties toward the larger n, i.e. n = floor(10q + 1/2)), printed with
one decimal digit.  The floor is computed by integer floor division on the
numerator and denominator so that the definition evaluates in the kernel. -/
def toFixed1 : JNum → String
  | .nan => "NaN"
  | .inf neg => if neg then "-Infinity" else "Infinity"
  | .val q =>
    let n : Int := Int.fdiv (20 * q.num + (q.den : Int)) (2 * (q.den : Int))
    let a : Nat := n.natAbs
    (if n < 0 then "-" else "") ++ jsNatToString (a / 10) ++ "." ++ jsNatToString (a % 10)

/-- Whitespace skipped by parseFloat before the numeral. -/
def isStrWhiteSpace (c : Char) : Bool :=
  c = ' ' || c = '\t' || c = '\n' || c = '\r' || c = '\x0B' || c = '\x0C'

/-- Value of a big-endian digit-character list. -/
def digitsToNat (cs : List Char) : Nat :=
  cs.foldl (fun a c => 10 * a + charVal c) 0

/-- Optionally signed digit sequence of an exponent; an absent or empty digit
sequence contributes exponent 0 (parseFloat then simply does not consume the
exponent part). -/
def parseSignedDigits (cs : List Char) : Int :=
  match cs with
  | '+' :: t => if (t.takeWhile isDigit).isEmpty then 0 else (digitsToNat (t.takeWhile isDigit) : Int)
  | '-' :: t => if (t.takeWhile isDigit).isEmpty then 0 else -(digitsToNat (t.takeWhile isDigit) : Int)
  | t => if (t.takeWhile isDigit).isEmpty then 0 else (digitsToNat (t.takeWhile isDigit) : Int)

/-- Exponent part of a decimal literal, if present at the given position. -/
def parseExponent (cs : List Char) : Int :=
  match cs with
  | 'e' :: t => parseSignedDigits t
  | 'E' :: t => parseSignedDigits t
  | _ => 0

/-- Longest decimal-literal prefix after the optional sign: returns the
mantissa digits as a natural number, the number of fractional digits, and the
exponent; none when no digits are present. -/
def parseDecimal (cs : List Char) : Option (Nat × Nat × Int) :=
  let ip := cs.takeWhile isDigit
  let rest := cs.drop ip.length
  match rest with
  | '.' :: t =>
    let fp := t.takeWhile isDigit
    if ip.isEmpty && fp.isEmpty then none
    else some (digitsToNat (ip ++ fp), fp.length, parseExponent (t.drop fp.length))
  | _ =>
    if ip.isEmpty then none
    else some (digitsToNat ip, 0, parseExponent rest)

/-- Rational value of a parsed decimal literal, built with mkRat over integer
arithmetic only. -/
def mantissaValue (sign : Bool) (mant : Nat) (fracLen : Nat) (expo : Int) : Rat :=
  let norm :=
    if 0 ≤ expo then mkRat ((mant : Int) * (10 : Int) ^ expo.toNat) (10 ^ fracLen)
    else mkRat (mant : Int) (10 ^ fracLen * 10 ^ (-expo).toNat)
  if sign then -norm else norm

/-- Model of the global parseFloat: skip leading whitespace, read an optional
sign, then either an Infinity literal or the longest decimal-literal prefix;
NaN when no numeral is present. -/
def parseFloat (s : String) : JNum :=
  let cs0 := s.data.dropWhile isStrWhiteSpace
  let signAndRest : Bool × List Char :=
    match cs0 with
    | '-' :: t => (true, t)
    | '+' :: t => (false, t)
    | t => (false, t)
  let sign := signAndRest.1
  let cs := signAndRest.2
  if cs.take 8 = "Infinity".data then .inf sign
  else
    match parseDecimal cs with
    | none => .nan
    | some (mant, fracLen, expo) => .val (mantissaValue sign mant fracLen expo)

/-- String with the characters N, S, E, W removed, as in the source
expression coord.replace with the character-class regex on NSEW (the regex has
no case-insensitive flag, so only the uppercase letters are removed). -/
def stripNSEW (s : String) : String :=
  String.mk (s.data.filter fun c => !(c = 'N' || c = 'S' || c = 'E' || c = 'W'))

/-- Embedding of parseCoordinate from script.js: numbers pass through, strings
are stripped of compass letters and parsed, negating when the original string
contains an uppercase S or W; any other value yields null (modelled none). -/
def parseCoordinate : JVal → Option JNum
  | .num n => some n
  | .str s =>
    let value := parseFloat (stripNSEW s)
    let isNegative := s.data.contains 'S' || s.data.contains 'W'
    some (if isNegative then value.neg else value)
  | _ => none


/-- Hypocenter descriptor of a raw feed record.  Fields can be absent
(undefined); latitude and longitude can be numbers, compass-prefixed strings,
or absent. -/
structure Hypocenter where
  name : Option String
  latitude : JVal
  longitude : JVal
  magnitude : Option JNum
  depth : Option JNum
deriving DecidableEq, Repr

/-- Earthquake descriptor of a raw feed record.  The feed always carries a
numeric maxScale (-1 when unknown) and a display timestamp string. -/
structure EarthquakeInfo where
  time : String
  hypocenter : Option Hypocenter
  maxScale : JNum
deriving DecidableEq, Repr

/-- Raw feed record: the earthquake descriptor may be absent. -/
structure FeedRecord where
  earthquake : Option EarthquakeInfo
deriving DecidableEq, Repr

/-- Embedding of the scaleMap object: lookup of an intensity label by the
stringified intensity code; none models an undefined property access. -/
def scaleMap (key : String) : Option String :=
  match key with
  | "-1" => some "不明"
  | "10" => some "1"
  | "20" => some "2"
  | "30" => some "3"
  | "40" => some "4"
  | "45" => some "5弱"
  | "50" => some "5強"
  | "55" => some "6弱"
  | "60" => some "6強"
  | "70" => some "7"
  | _ => none

/-- Embedding of getScaleClass: three-tier severity class by numeric
comparison on the intensity code. -/
def getScaleClass (scale : JNum) : String :=
  if jsGe scale 50 then "high" else if jsGe scale 30 then "medium" else "low"

/-- Embedding of getMarkerColor: marker color by the same thresholds. -/
def getMarkerColor (scale : JNum) : String :=
  if jsGe scale 50 then "#d32f2f" else if jsGe scale 30 then "#f57c00" else "#388e3c"

/-- Embedding of formatDateForDisplay: replaces every slash by a slash,
hence returns the string unchanged character by character. -/
def formatDateForDisplay (s : String) : String :=
  String.mk (s.data.map fun c => if c = '/' then '/' else c)

/-- Embedding of the severity-label expression used by both renderers:
scaleMap indexed by the stringified code, with the unknown label as the
fallback for an undefined lookup. -/
def scaleText (maxScale : JNum) : String :=
  (scaleMap (jsNumToString maxScale)).getD "不明"

/-- One rendered list card: the data interpolated into the card markup by
displayEarthquakes. -/
structure Card where
  time : String
  scaleClass : String
  scaleText : String
  hypocenterName : String
  magnitudeText : String
deriving DecidableEq, Repr

/-- One child element of the list container: either the no-data placeholder
div or an earthquake card. -/
inductive ListItem where
  | noDataDiv
  | card (c : Card)
deriving DecidableEq, Repr

/-- Card built by the displayEarthquakes loop body for a record whose
earthquake descriptor is present. -/
def renderCard (eqi : EarthquakeInfo) : Card :=
  let maxScale := if jsTruthy eqi.maxScale then eqi.maxScale else .val (-1)
  { time := formatDateForDisplay eqi.time
    scaleClass := getScaleClass maxScale
    scaleText := scaleText maxScale
    hypocenterName :=
      match eqi.hypocenter with
      | none => "不明"
      | some h =>
        match h.name with
        | none => "不明"
        | some n => if n = "" then "不明" else n
    magnitudeText :=
      match eqi.hypocenter with
      | none => "不明"
      | some h =>
        match h.magnitude with
        | none => "不明"
        | some m => "M" ++ toFixed1 m }

/-- Embedding of displayEarthquakes: clears the container, shows the single
no-data placeholder when the input is null or empty, and otherwise appends one
card per record that has an earthquake descriptor, skipping the rest. -/
def displayEarthquakes (data : Option (List FeedRecord)) : List ListItem :=
  match data with
  | none => [.noDataDiv]
  | some l =>
    if l.length = 0 then [.noDataDiv]
    else l.filterMap fun item => item.earthquake.map fun eqi => .card (renderCard eqi)

/-- Popup contents bound to a map marker. -/
structure Popup where
  name : String
  time : String
  scaleClass : String
  scaleText : String
  magnitudeText : String
  depthText : String
deriving DecidableEq, Repr

/-- One circle marker on the markers layer. -/
structure Marker where
  lat : JNum
  lng : JNum
  color : String
  popup : Popup
deriving DecidableEq, Repr

/-- Popup built by addEarthquakeMarkers for a record with an earthquake
descriptor and a hypocenter. -/
def mkPopup (eqi : EarthquakeInfo) (hypo : Hypocenter) : Popup :=
  { name := match hypo.name with
      | none => "不明"
      | some n => if n = "" then "不明" else n
    time := eqi.time
    scaleClass := getScaleClass eqi.maxScale
    scaleText := scaleText eqi.maxScale
    magnitudeText :=
      match hypo.magnitude with
      | none => "不明"
      | some m => if m = .val (-1) then "不明" else "M" ++ toFixed1 m
    depthText :=
      match hypo.depth with
      | none => "不明"
      | some d => if d = .val (-1) then "不明" else jsNumToString d ++ "km" }

/-- Per-record marker construction shared by both variants of
addEarthquakeMarkers: skip records without an earthquake descriptor or
hypocenter, parse both coordinates, skip when either is falsy (null, NaN, or
zero), and otherwise build the colored marker with its popup. -/
def markerData (item : FeedRecord) : Option Marker :=
  match item.earthquake with
  | none => none
  | some eqi =>
    match eqi.hypocenter with
    | none => none
    | some hypo =>
      match parseCoordinate hypo.latitude, parseCoordinate hypo.longitude with
      | some la, some ln =>
        if jsTruthy la && jsTruthy ln then
          some { lat := la, lng := ln, color := getMarkerColor eqi.maxScale
                 popup := mkPopup eqi hypo }
        else none
      | _, _ => none

/-- Viewport of the map: either explicitly set to a center and zoom, or fit to
the bounding box of a set of marker positions with a padding. -/
inductive ViewState where
  | setTo (lat lng : Rat) (zoom : Nat)
  | fitted (pts : List (JNum × JNum)) (padX padY : Nat)
deriving DecidableEq, Repr

/-- Default whole-region view installed by initMap. -/
def defaultView : ViewState := .setTo (mkRat 365 10) (mkRat 1380 10) 5

/-- State of the map singleton: the markers layer contents in insertion order
and the current viewport. -/
structure MapState where
  markers : List Marker
  view : ViewState
deriving DecidableEq, Repr

/-- Embedding of the batched insertion loop of the map-enabled variant: the
loop index starts at 0 and advances by the batch size, appending the slice
from i of length at most the batch size on each iteration.  Fuel bounds the
number of iterations; the callers pass fuel larger than the iteration count
whenever the batch size is positive. -/
def sliceLoop (bs : Nat) (ms : List Marker) : Nat → Nat → List Marker → List Marker
  | 0, _, layer => layer
  | fuel + 1, i, layer =>
    if i < ms.length then sliceLoop bs ms fuel (i + bs) (layer ++ (ms.drop i).take bs)
    else layer

/-- Embedding of the batched addEarthquakeMarkers, with the batch size as a
parameter (the source fixes it to 50): clear the markers layer, return early
on null or empty data, pre-build the valid marker list, insert it in batches,
and fit the viewport to the marker positions when at least one marker exists.
The try-catch fallback to the default view around the bounds fitting never
fires in this model, in which bounds fitting is total. -/
def addEarthquakeMarkersBatched (bs : Nat) (data : Option (List FeedRecord))
    (st : MapState) : MapState :=
  let cleared : MapState := { st with markers := [] }
  match data with
  | none => cleared
  | some l =>
    if l.length = 0 then cleared
    else
      let ms := l.filterMap markerData
      let layer := sliceLoop bs ms (ms.length + 1) 0 []
      if layer.length > 0 then
        { markers := layer, view := .fitted (layer.map fun m => (m.lat, m.lng)) 50 50 }
      else { cleared with markers := layer }

/-- The batch size fixed by the source. -/
def BATCH_SIZE : Nat := 50

/-- Embedding of addEarthquakeMarkers as the source runs it. -/
def addEarthquakeMarkers (data : Option (List FeedRecord)) (st : MapState) : MapState :=
  addEarthquakeMarkersBatched BATCH_SIZE data st

/-- Embedding of the unbatched addEarthquakeMarkers of script.js: the single
forEach pass that builds and inserts each valid marker directly (its per-item
skip conditions, color, and popup are the same expressions, shared here as
markerData), then fits the viewport when at least one marker exists. -/
def addEarthquakeMarkersUnbatched (data : Option (List FeedRecord))
    (st : MapState) : MapState :=
  let cleared : MapState := { st with markers := [] }
  match data with
  | none => cleared
  | some l =>
    if l.length = 0 then cleared
    else
      let layer := l.filterMap markerData
      if layer.length > 0 then
        { markers := layer, view := .fitted (layer.map fun m => (m.lat, m.lng)) 50 50 }
      else { cleared with markers := layer }

/-- Outcome of the transport underlying the fetch call: either the network
fails outright, or a response arrives with a status code and a body of raw
feed records. -/
inductive Transport where
  | netFail (msg : String)
  | response (status : Nat) (body : List FeedRecord)
deriving DecidableEq, Repr

/-- The ok flag of a fetch Response: status in the inclusive range 200-299. -/
def responseOk (status : Nat) : Bool := decide (200 ≤ status) && decide (status ≤ 299)

/-- Embedding of fetchEarthquakeData: a non-ok status raises the API-failure
message carrying the status code, the catch block then wraps any failure in
the fetch-failure message; an ok response returns the parsed body. -/
def fetchEarthquakeData (t : Transport) : Except String (List FeedRecord) :=
  match t with
  | .netFail m => .error ("データの取得に失敗しました: " ++ m)
  | .response status body =>
    if responseOk status then .ok body
    else .error ("データの取得に失敗しました: " ++
      "API接続に失敗しました (ステータス: " ++ jsNatToString status ++ ")")

/-- State of the error banner: hidden, or shown with a message together with
the delay in milliseconds after which the pending timeout hides it again. -/
inductive ErrorDisplay where
  | hidden
  | shown (msg : String) (autoDismissMs : Nat)
deriving DecidableEq, Repr

/-- Embedding of showError: display the message and schedule hiding it after
a fixed 5000 millisecond timeout. -/
def showError (msg : String) : ErrorDisplay := .shown msg 5000

/-- Whole UI state touched by one fetch-render cycle. -/
structure AppState where
  errorDisp : ErrorDisplay
  listDisp : List ListItem
  mapSt : MapState
  loadingShown : Bool
  fetchBtnDisabled : Bool
deriving DecidableEq, Repr

/-- Result of one run of loadEarthquakeData: the final UI state and the
number of requests issued to the feed during the run. -/
structure LoadResult where
  finalState : AppState
  feedRequests : Nat
deriving DecidableEq, Repr

/-- The validation-error message shown when the start date is after the end
date. -/
def validationMsg : String := "開始日は終了日より前の日付を指定してください"

/-- Embedding of loadEarthquakeData: the date-order validation gate runs
before any request; on a valid range the fetch outcome (the transport is a
parameter standing for the awaited network call) drives either the
success path (render list, re-plot markers, error banner stays hidden) or the
catch path (show the auto-dismissing error, clear the list container, leave
the map untouched); the finally block always hides the loading indicator and
re-enables the trigger button.  Dates compare by their numeric timestamps. -/
def loadEarthquakeData (startDate endDate : JNum) (transport : Transport)
    (st : AppState) : LoadResult :=
  if jsLt endDate startDate then
    { finalState := { st with errorDisp := showError validationMsg }, feedRequests := 0 }
  else
    match fetchEarthquakeData transport with
    | .ok data =>
      { finalState :=
          { errorDisp := .hidden
            listDisp := displayEarthquakes (some data)
            mapSt := addEarthquakeMarkers (some data) st.mapSt
            loadingShown := false
            fetchBtnDisabled := false }
        feedRequests := 1 }
    | .error msg =>
      { finalState :=
          { errorDisp := showError msg
            listDisp := []
            mapSt := st.mapSt
            loadingShown := false
            fetchBtnDisabled := false }
        feedRequests := 1 }

/-- Truthiness of a parsed coordinate (null is falsy, then JS number
truthiness), exactly the test negated by the skip condition in both marker
loops. -/
def optTruthy : Option JNum → Bool
  | none => false
  | some n => jsTruthy n

/-- A coordinate field passes the marker loops and the skip condition exactly
when its parse is truthy. -/
def coordValid (v : JVal) : Bool := optTruthy (parseCoordinate v)

/-- Transport outcomes on which fetchEarthquakeData raises: a network failure
or a non-success status. -/
def transportFailed : Transport → Bool
  | .netFail _ => true
  | .response status _ => !responseOk status

/-- Value of a little-endian decimal digit list (decoder used to reason about
the digit strings emitted by jsNatToString). -/
def fromRevDigits : List Nat → Nat
  | [] => 0
  | d :: ds => d + 10 * fromRevDigits ds

/-- Sample raw record, the normalization scenario of the feed documentation:
a named hypocenter with numeric coordinates, magnitude 5.8, depth 10,
intensity code 60. -/
def sampleRecord : FeedRecord :=
  { earthquake := some {
      time := "2025/01/15 09:30:00"
      hypocenter := some {
          name := some "石川県能登地方"
          latitude := .num (.val (mkRat 375 10))
          longitude := .num (.val (mkRat 1373 10))
          magnitude := some (.val (mkRat 58 10))
          depth := some (.val (mkRat 10 1)) }
      maxScale := .val (mkRat 60 1) } }

/-- Raw record whose hypocenter name is the empty string but whose other
fields are complete. -/
def namelessRecord : FeedRecord :=
  { earthquake := some {
      time := "2025/01/15 09:30:00"
      hypocenter := some {
          name := some ""
          latitude := .num (.val (mkRat 38 1))
          longitude := .num (.val (mkRat 141 1))
          magnitude := some (.val (mkRat 5 1))
          depth := some (.val (mkRat 10 1)) }
      maxScale := .val (mkRat 40 1) } }

/-- Raw record with the unknown-magnitude sentinel -1 in the magnitude
field. -/
def minus1MagRecord : FeedRecord :=
  { earthquake := some {
      time := "2025/01/15 09:30:00"
      hypocenter := some {
          name := some "石川県能登地方"
          latitude := .num (.val (mkRat 375 10))
          longitude := .num (.val (mkRat 1373 10))
          magnitude := some (.val (mkRat (-1) 1))
          depth := some (.val (mkRat 10 1)) }
      maxScale := .val (mkRat 40 1) } }

/-- Raw record with a named hypocenter whose latitude is the invalid
coordinate zero. -/
def invalidCoordRecord : FeedRecord :=
  { earthquake := some {
      time := "2025/01/15 09:30:00"
      hypocenter := some {
          name := some "石川県能登地方"
          latitude := .num (.val (mkRat 0 1))
          longitude := .num (.val (mkRat 1373 10))
          magnitude := some (.val (mkRat 58 10))
          depth := some (.val (mkRat 10 1)) }
      maxScale := .val (mkRat 40 1) } }

/-- Raw record without an earthquake descriptor. -/
def noEqRecord : FeedRecord := { earthquake := none }

/-- Map state with an empty markers layer and the default viewport. -/
def emptyMapState : MapState := { markers := [], view := defaultView }

/-- Map state whose viewport was fitted to a previous marker set. -/
def fittedMapState : MapState :=
  { markers := [{ lat := .val (mkRat 375 10)
                  lng := .val (mkRat 1373 10)
                  color := "#d32f2f"
                  popup := { name := "石川県能登地方"
                             time := "2025/01/15 09:30:00"
                             scaleClass := "high"
                             scaleText := "6強"
                             magnitudeText := "M5.8"
                             depthText := "10km" } }]
    view := .fitted [(.val (mkRat 375 10), .val (mkRat 1373 10))] 50 50 }

/-- App state with a previously plotted marker set. -/
def sampleAppState : AppState :=
  { errorDisp := .hidden
    listDisp := []
    mapSt := fittedMapState
    loadingShown := false
    fetchBtnDisabled := false }

lemma sliceLoop_eq (bs : Nat) (ms : List Marker) :
    ∀ (fuel i : Nat) (layer : List Marker), ms.length ≤ i + fuel * bs →
      sliceLoop bs ms fuel i layer = layer ++ ms.drop i := by
  intro fuel
  induction fuel with
  | zero =>
    intro i layer h
    simp only [Nat.zero_mul, Nat.add_zero] at h
    simp [sliceLoop, List.drop_eq_nil_of_le h]
  | succ fuel ih =>
    intro i layer h
    by_cases hi : i < ms.length
    · have hrec : ms.length ≤ (i + bs) + fuel * bs := by
        have hsm : (fuel + 1) * bs = fuel * bs + bs := Nat.succ_mul fuel bs
        omega
      rw [sliceLoop, if_pos hi, ih (i + bs) (layer ++ (ms.drop i).take bs) hrec]
      rw [List.append_assoc]
      congr 1
      rw [← List.take_append_drop bs (ms.drop i), List.drop_drop]
      simp [Nat.add_comm]
    · rw [sliceLoop, if_neg hi]
      have : ms.length ≤ i := Nat.le_of_not_lt hi
      simp [List.drop_eq_nil_of_le this]

lemma sliceLoop_all (bs : Nat) (hbs : 0 < bs) (ms : List Marker) :
    sliceLoop bs ms (ms.length + 1) 0 [] = ms := by
  have h : ms.length ≤ 0 + (ms.length + 1) * bs := by
    have h1 : ms.length + 1 ≤ (ms.length + 1) * bs := Nat.le_mul_of_pos_right _ hbs
    omega
  simpa using sliceLoop_eq bs ms (ms.length + 1) 0 [] h

/-- C9: for every positive batch size, the batched marker insertion of the
map-enabled variant produces exactly the state the unbatched single-pass
insertion of script.js produces: the same markers, in the same order, with the
same colors and popups, and the same final viewport; in particular the result
does not depend on the batch size. -/
theorem batched_markers_eq_unbatched (bs : Nat) (hbs : 0 < bs)
    (data : Option (List FeedRecord)) (st : MapState) :
    addEarthquakeMarkersBatched bs data st = addEarthquakeMarkersUnbatched data st := by
  cases data with
  | none => rfl
  | some l =>
    simp only [addEarthquakeMarkersBatched, addEarthquakeMarkersUnbatched]
    by_cases hl : l.length = 0
    · simp [hl]
    · simp only [hl, if_false, sliceLoop_all bs hbs]

/-- Witness for C9 at batch size 3 on a two-record list. -/
theorem batched_markers_eq_unbatched_witness :
    addEarthquakeMarkersBatched 3 (some [sampleRecord, noEqRecord]) emptyMapState =
      addEarthquakeMarkersUnbatched (some [sampleRecord, noEqRecord]) emptyMapState :=
  batched_markers_eq_unbatched 3 (by decide) _ _

lemma markerData_none_of_invalid (item : FeedRecord)
    (h : ∀ eqi, item.earthquake = some eqi → ∀ hypo, eqi.hypocenter = some hypo →
      coordValid hypo.latitude = false ∨ coordValid hypo.longitude = false) :
    markerData item = none := by
  cases hitem : item.earthquake with
  | none => simp [markerData, hitem]
  | some eqi =>
    cases hhypo : eqi.hypocenter with
    | none => simp [markerData, hitem, hhypo]
    | some hypo =>
      have hcv := h eqi hitem hypo hhypo
      simp only [markerData, hitem, hhypo]
      cases hlat : parseCoordinate hypo.latitude with
      | none => rfl
      | some la =>
        cases hlng : parseCoordinate hypo.longitude with
        | none => rfl
        | some ln =>
          simp only [coordValid, optTruthy, hlat, hlng] at hcv
          rcases hcv with hcv | hcv <;> simp [hcv]

/-- C4 counterexample: plotting a list whose only event has latitude zero
leaves zero markers, but the viewport stays at the previously fitted view
instead of being reset to the default whole-region view. -/
theorem all_invalid_coords_no_default_reset :
    (addEarthquakeMarkers (some [invalidCoordRecord]) fittedMapState).markers = [] ∧
    (addEarthquakeMarkers (some [invalidCoordRecord]) fittedMapState).view ≠ defaultView := by
  decide

/-- C4 as amended: when every record's parsed latitude or longitude is falsy,
map plotting produces zero markers and leaves the viewport exactly as it was;
no reset to the default view happens on this path. -/
theorem all_invalid_coords_zero_markers_view_unchanged
    (data : List FeedRecord) (st : MapState)
    (h : ∀ item ∈ data, ∀ eqi, item.earthquake = some eqi →
      ∀ hypo, eqi.hypocenter = some hypo →
        coordValid hypo.latitude = false ∨ coordValid hypo.longitude = false) :
    (addEarthquakeMarkers (some data) st).markers = [] ∧
    (addEarthquakeMarkers (some data) st).view = st.view := by
  have hfm : data.filterMap markerData = [] := by
    refine List.filterMap_eq_nil_iff.mpr fun item him => ?_
    exact markerData_none_of_invalid item (h item him)
  simp only [addEarthquakeMarkers, addEarthquakeMarkersBatched]
  by_cases hl : data.length = 0
  · simp [hl]
  · simp only [hl, if_false, hfm, sliceLoop_all BATCH_SIZE (by decide) []]
    simp

/-- Witness for the amended C4 on a concrete one-record list over a
previously fitted viewport. -/
theorem all_invalid_coords_witness :
    (addEarthquakeMarkers (some [invalidCoordRecord]) fittedMapState).markers = [] ∧
    (addEarthquakeMarkers (some [invalidCoordRecord]) fittedMapState).view =
      fittedMapState.view :=
  all_invalid_coords_zero_markers_view_unchanged [invalidCoordRecord] fittedMapState (by
    intro item him eqi heq hypo hh
    simp only [List.mem_singleton] at him
    subst him
    simp only [invalidCoordRecord] at heq
    injection heq with heq
    subst heq
    simp only at hh
    injection hh with hh
    subst hh
    left
    decide)

/-- C5: the severity bucket is high exactly for codes at least 50, medium
exactly for codes in the interval from 30 up to but excluding 50, low exactly
below 30, and every finite numeric code lands in one of the three tiers. -/
theorem scale_bucket_thresholds (q : Rat) :
    (getScaleClass (.val q) = "high" ↔ 50 ≤ q) ∧
    (getScaleClass (.val q) = "medium" ↔ 30 ≤ q ∧ q < 50) ∧
    (getScaleClass (.val q) = "low" ↔ q < 30) ∧
    (getScaleClass (.val q) = "high" ∨ getScaleClass (.val q) = "medium" ∨
      getScaleClass (.val q) = "low") := by
  by_cases h1 : (50:Rat) ≤ q
  · have h2 : (30:Rat) ≤ q := by linarith
    have hc : getScaleClass (.val q) = "high" := by simp [getScaleClass, jsGe, h1]
    refine ⟨⟨fun _ => h1, fun _ => hc⟩, ⟨fun hco => ?_, fun hq => ?_⟩,
      ⟨fun hco => ?_, fun hq => ?_⟩, Or.inl hc⟩
    · rw [hc] at hco; exact absurd hco (by decide)
    · exact absurd h1 (not_le.mpr hq.2)
    · rw [hc] at hco; exact absurd hco (by decide)
    · exact absurd hq (not_lt.mpr (by linarith))
  · by_cases h2 : (30:Rat) ≤ q
    · have hc : getScaleClass (.val q) = "medium" := by simp [getScaleClass, jsGe, h1, h2]
      refine ⟨⟨fun hco => ?_, fun hq => ?_⟩, ⟨fun _ => ⟨h2, not_le.mp h1⟩, fun _ => hc⟩,
        ⟨fun hco => ?_, fun hq => ?_⟩, Or.inr (Or.inl hc)⟩
      · rw [hc] at hco; exact absurd hco (by decide)
      · exact absurd hq h1
      · rw [hc] at hco; exact absurd hco (by decide)
      · exact absurd hq (not_lt.mpr h2)
    · have hc : getScaleClass (.val q) = "low" := by simp [getScaleClass, jsGe, h1, h2]
      refine ⟨⟨fun hco => ?_, fun hq => ?_⟩, ⟨fun hco => ?_, fun hq => ?_⟩,
        ⟨fun _ => not_le.mp h2, fun _ => hc⟩, Or.inr (Or.inr hc)⟩
      · rw [hc] at hco; exact absurd hco (by decide)
      · exact absurd hq h1
      · rw [hc] at hco; exact absurd hco (by decide)
      · exact absurd hq.1 h2

/-- Witness for C5 at the out-of-table code 55. -/
theorem scale_bucket_witness :
    getScaleClass (.val (mkRat 55 1)) = "high" ↔ (50:Rat) ≤ mkRat 55 1 :=
  (scale_bucket_thresholds (mkRat 55 1)).1

/-- C7: whenever the numeric start date is strictly later than the numeric
end date, one trigger of the load cycle only shows the auto-dismissing
validation message and issues zero feed requests; list, map, and every other
piece of UI state stay untouched. -/
theorem validation_gate_blocks_fetch (s e : Rat) (t : Transport) (st : AppState)
    (h : e < s) :
    loadEarthquakeData (.val s) (.val e) t st =
      { finalState := { st with errorDisp := showError validationMsg }
        feedRequests := 0 } := by
  simp [loadEarthquakeData, jsLt, h]

/-- Witness for C7 with start date 1 and end date 0 over a state holding
plotted markers. -/
theorem validation_gate_witness :
    loadEarthquakeData (.val (mkRat 1 1)) (.val (mkRat 0 1)) (.response 200 [])
      sampleAppState =
      { finalState := { sampleAppState with errorDisp := showError validationMsg }
        feedRequests := 0 } :=
  validation_gate_blocks_fetch _ _ _ _ (by decide)

/-- C8: a failed fetch cycle (network failure or non-success status) ends with
an error message shown with the fixed 5000 ms auto-dismiss delay, an empty
list container, the map state exactly as before the cycle, and the loading
indicator off. -/
theorem failed_fetch_effects (sd ed : JNum) (t : Transport) (st : AppState)
    (hv : jsLt ed sd = false) (hf : transportFailed t = true) :
    ∃ m, loadEarthquakeData sd ed t st =
      { finalState :=
          { errorDisp := ErrorDisplay.shown m 5000
            listDisp := []
            mapSt := st.mapSt
            loadingShown := false
            fetchBtnDisabled := false }
        feedRequests := 1 } := by
  cases t with
  | netFail m =>
    refine ⟨"データの取得に失敗しました: " ++ m, ?_⟩
    simp [loadEarthquakeData, hv, fetchEarthquakeData, showError]
  | response status body =>
    simp only [transportFailed, Bool.not_eq_true'] at hf
    refine ⟨"データの取得に失敗しました: " ++ "API接続に失敗しました (ステータス: " ++
      jsNatToString status ++ ")", ?_⟩
    simp [loadEarthquakeData, hv, fetchEarthquakeData, hf, showError]

/-- Witness for C8 on an HTTP 500 response over a state holding plotted
markers. -/
theorem failed_fetch_witness :
    ∃ m, loadEarthquakeData (.val (mkRat 0 1)) (.val (mkRat 0 1))
      (.response 500 []) sampleAppState =
      { finalState :=
          { errorDisp := ErrorDisplay.shown m 5000
            listDisp := []
            mapSt := sampleAppState.mapSt
            loadingShown := false
            fetchBtnDisabled := false }
        feedRequests := 1 } :=
  failed_fetch_effects _ _ _ _ (by decide) (by decide)

/-- C10: a non-empty input list all of whose records lack an earthquake
descriptor renders an empty container, with no cards and no placeholder; the
no-data placeholder appears exactly when the input is null or empty. -/
theorem no_descriptor_renders_empty_container :
    (∀ l : List FeedRecord, l ≠ [] → (∀ item ∈ l, item.earthquake = none) →
      displayEarthquakes (some l) = []) ∧
    (∀ d : Option (List FeedRecord),
      ListItem.noDataDiv ∈ displayEarthquakes d ↔ d = none ∨ d = some []) := by
  constructor
  · intro l hne hall
    simp only [displayEarthquakes]
    rw [if_neg (by simpa [List.length_eq_zero] using hne)]
    refine List.filterMap_eq_nil_iff.mpr fun item him => ?_
    rw [hall item him]
    rfl
  · intro d
    cases d with
    | none => simp [displayEarthquakes]
    | some l =>
      by_cases hl : l.length = 0
      · have hnil : l = [] := List.length_eq_zero.mp hl
        subst hnil
        simp [displayEarthquakes]
      · have hne : ¬ l = [] := by simpa [List.length_eq_zero] using hl
        simp [displayEarthquakes, hl, List.mem_filterMap, hne]

/-- Witness for C10 on the one-record list without an earthquake
descriptor. -/
theorem no_descriptor_witness :
    displayEarthquakes (some [noEqRecord]) = [] :=
  no_descriptor_renders_empty_container.1 [noEqRecord] (by simp)
    (by intro item him; simp only [List.mem_singleton] at him; subst him; rfl)

/-- C1 evaluation at the failing input: a record whose hypocenter name is the
empty string is not excluded; the list renders one card labelling the
hypocenter with the unknown label, and the map plots one marker for it. -/
theorem nameless_record_rendered :
    displayEarthquakes (some [namelessRecord]) =
      [ListItem.card
        { time := "2025/01/15 09:30:00", scaleClass := "medium", scaleText := "4",
          hypocenterName := "不明", magnitudeText := "M5.0" }] ∧
    (addEarthquakeMarkers (some [namelessRecord]) emptyMapState).markers.length = 1 := by
  decide

/-- C3 evaluation at the failing input: with raw magnitude -1 the list card
shows the formatted number, while the map popup for the very same record
shows the unknown label. -/
theorem minus1_magnitude_formatted_in_list :
    displayEarthquakes (some [minus1MagRecord]) =
      [ListItem.card
        { time := "2025/01/15 09:30:00", scaleClass := "medium", scaleText := "4",
          hypocenterName := "石川県能登地方", magnitudeText := "M-1.0" }] ∧
    ((addEarthquakeMarkers (some [minus1MagRecord]) emptyMapState).markers.map
      fun m => m.popup.magnitudeText) = ["不明"] := by
  decide

lemma mem_natDigitsAux_lt (fuel : Nat) :
    ∀ n d, d ∈ natDigitsAux fuel n → d < 10 := by
  induction fuel with
  | zero => intro n d h; simp [natDigitsAux] at h
  | succ fuel ih =>
    intro n d h
    rw [natDigitsAux] at h
    by_cases hn : n = 0
    · simp [hn] at h
    · rw [if_neg hn] at h
      rcases List.mem_cons.mp h with h | h
      · subst h; exact Nat.mod_lt _ (by omega)
      · exact ih _ _ h

lemma fromRevDigits_natDigitsAux (fuel : Nat) :
    ∀ n, n ≤ fuel → fromRevDigits (natDigitsAux fuel n) = n := by
  induction fuel with
  | zero =>
    intro n h
    have : n = 0 := Nat.le_zero.mp h
    subst this
    rfl
  | succ fuel ih =>
    intro n h
    rw [natDigitsAux]
    by_cases hn : n = 0
    · simp [hn, fromRevDigits]
    · rw [if_neg hn, fromRevDigits]
      have hdiv : n / 10 ≤ fuel := by
        have : n / 10 < n := Nat.div_lt_self (Nat.pos_of_ne_zero hn) (by omega)
        omega
      rw [ih _ hdiv]
      exact Nat.mod_add_div n 10

lemma charVal_digitChar : ∀ d, d < 10 → charVal (digitChar d) = d := by decide

lemma decode_digit_chars (n : Nat) :
    fromRevDigits (((natRevDigits n).map digitChar).map charVal) = n := by
  rw [List.map_map]
  have hmap : (natRevDigits n).map (charVal ∘ digitChar) = (natRevDigits n).map id :=
    List.map_congr_left fun d hd =>
      charVal_digitChar d (mem_natDigitsAux_lt n n d hd)
  rw [hmap, List.map_id]
  exact fromRevDigits_natDigitsAux n n (Nat.le_refl n)

lemma jsNatToString_inj (a b : Nat) (h : jsNatToString a = jsNatToString b) : a = b := by
  unfold jsNatToString at h
  by_cases ha : a = 0 <;> by_cases hb : b = 0
  · omega
  · rw [if_pos ha, if_neg hb] at h
    have hd : ("0" : String).data = (((natRevDigits b).map digitChar).reverse) := by
      have := congrArg String.data h
      simpa using this
    have hlist : (natRevDigits b).map digitChar = ['0'] := by
      have := congrArg List.reverse hd
      simpa using this.symm
    have := decode_digit_chars b
    rw [hlist] at this
    simp [fromRevDigits, charVal] at this
    omega
  · rw [if_neg ha, if_pos hb] at h
    have hd : (((natRevDigits a).map digitChar).reverse) = ("0" : String).data := by
      have := congrArg String.data h
      simpa using this
    have hlist : (natRevDigits a).map digitChar = ['0'] := by
      have := congrArg List.reverse hd
      simpa using this
    have := decode_digit_chars a
    rw [hlist] at this
    simp [fromRevDigits, charVal] at this
    omega
  · rw [if_neg ha, if_neg hb] at h
    have hd := congrArg String.data h
    simp only [String.data] at hd
    have hlist : (natRevDigits a).map digitChar = (natRevDigits b).map digitChar := by
      have := congrArg List.reverse hd
      simpa using this
    have hda := decode_digit_chars a
    rw [hlist] at hda
    rw [decode_digit_chars b] at hda
    omega

lemma digitChar_ne_dash : ∀ d, d < 10 → digitChar d ≠ '-' := by decide

lemma jsNatToString_data_ne_dash_cons (n : Nat) (rest : List Char) :
    (jsNatToString n).data ≠ '-' :: rest := by
  unfold jsNatToString
  by_cases hn : n = 0
  · simp [hn]
  · rw [if_neg hn]
    intro h
    have h2 : ((natRevDigits n).map digitChar).reverse = '-' :: rest := h
    have hmem : '-' ∈ ((natRevDigits n).map digitChar).reverse := by
      rw [h2]; exact List.mem_cons_self _ _
    rw [List.mem_reverse] at hmem
    rcases List.mem_map.mp hmem with ⟨d, hd, hdc⟩
    exact digitChar_ne_dash d (mem_natDigitsAux_lt n n d hd) hdc

lemma signedNatString_inj (a b : Int)
    (h : (if a < 0 then "-" else "") ++ jsNatToString a.natAbs =
         (if b < 0 then "-" else "") ++ jsNatToString b.natAbs) : a = b := by
  by_cases ha : a < 0 <;> by_cases hb : b < 0
  · rw [if_pos ha, if_pos hb] at h
    have hd := congrArg String.data h
    rw [String.data_append, String.data_append] at hd
    have hdata : (jsNatToString a.natAbs).data = (jsNatToString b.natAbs).data := by
      simpa using hd
    have := jsNatToString_inj _ _ (String.ext hdata)
    omega
  · rw [if_pos ha, if_neg hb] at h
    rw [String.empty_append] at h
    have hd := congrArg String.data h
    rw [String.data_append] at hd
    exact absurd hd.symm (jsNatToString_data_ne_dash_cons _ _)
  · rw [if_neg ha, if_pos hb] at h
    rw [String.empty_append] at h
    have hd := congrArg String.data h
    rw [String.data_append] at hd
    exact absurd hd (jsNatToString_data_ne_dash_cons _ _)
  · rw [if_neg ha, if_neg hb] at h
    rw [String.empty_append, String.empty_append] at h
    have := jsNatToString_inj _ _ h
    omega

lemma jsRatToString_intCast (c : Int) :
    jsRatToString (c : Rat) = (if c < 0 then "-" else "") ++ jsNatToString c.natAbs := by
  have hfr : fracDigitsAux 1100 (c.natAbs % 1) 1 = [] := by
    rw [Nat.mod_one]
    decide
  have hlt : ((c : Rat) < 0) = (c < 0) := by
    simp [Int.cast_lt_zero]
  simp only [jsRatToString, Rat.num_intCast, Rat.den_intCast, Nat.div_one, hfr, hlt]
  simp [String.append_empty]

/-- C6: on the closed code set the severity label matches the documented
table, and every integer code outside the set falls back to the unknown
label. -/
theorem intensity_label_table :
    (scaleText (.val (-1)) = "不明" ∧ scaleText (.val 10) = "1" ∧
     scaleText (.val 20) = "2" ∧ scaleText (.val 30) = "3" ∧
     scaleText (.val 40) = "4" ∧ scaleText (.val 45) = "5弱" ∧
     scaleText (.val 50) = "5強" ∧ scaleText (.val 55) = "6弱" ∧
     scaleText (.val 60) = "6強" ∧ scaleText (.val 70) = "7") ∧
    ∀ code : Int, code ∉ ([-1, 10, 20, 30, 40, 45, 50, 55, 60, 70] : List Int) →
      scaleText (.val (code : Rat)) = "不明" := by
  constructor
  · exact ⟨by decide, by decide, by decide, by decide, by decide, by decide, by decide,
      by decide, by decide, by decide⟩
  · intro code hc
    simp only [List.mem_cons, List.mem_singleton, not_or] at hc
    obtain ⟨h1, h2, h3, h4, h5, h6, h7, h8, h9, h10, -⟩ := hc
    have hs : jsNumToString (.val (code : Rat)) =
        (if code < 0 then "-" else "") ++ jsNatToString code.natAbs := by
      simp only [jsNumToString]
      exact jsRatToString_intCast code
    simp only [scaleText, hs]
    have hmain : scaleMap ((if code < 0 then "-" else "") ++ jsNatToString code.natAbs)
        = none := by
      unfold scaleMap
      split
      all_goals try rfl
      all_goals
        rename_i heq
        exfalso
        first
          | exact h1 (signedNatString_inj code (-1) (heq.trans (by decide)))
          | exact h2 (signedNatString_inj code 10 (heq.trans (by decide)))
          | exact h3 (signedNatString_inj code 20 (heq.trans (by decide)))
          | exact h4 (signedNatString_inj code 30 (heq.trans (by decide)))
          | exact h5 (signedNatString_inj code 40 (heq.trans (by decide)))
          | exact h6 (signedNatString_inj code 45 (heq.trans (by decide)))
          | exact h7 (signedNatString_inj code 50 (heq.trans (by decide)))
          | exact h8 (signedNatString_inj code 55 (heq.trans (by decide)))
          | exact h9 (signedNatString_inj code 60 (heq.trans (by decide)))
          | exact h10 (signedNatString_inj code 70 (heq.trans (by decide)))
    rw [hmain]
    rfl

/-- Witness for C6 at the out-of-table code 35. -/
theorem intensity_label_witness :
    scaleText (.val ((35 : Int) : Rat)) = "不明" :=
  intensity_label_table.2 35 (by decide)

/-- C2 counterexample: a lowercase compass prefix is not stripped (the regex
has no ignore-case flag), so the parse yields NaN where case-insensitive
stripping would yield 38.3. -/
theorem lowercase_compass_not_parsed :
    parseCoordinate (.str "n38.3") = some .nan ∧
    JNum.nan ≠ JNum.val (mkRat 383 10) := by decide

/-- C2 as amended: numbers pass through unchanged; absent and other
non-string inputs yield null; for every string input the parse removes
exactly the uppercase letters N, S, E, W wherever they occur, runs parseFloat
on the remainder, and negates the outcome exactly when the string contains an
uppercase S or W anywhere, so a stripped remainder parsing to a finite value
yields that value with the containment-driven sign, an unparseable stripped
remainder yields NaN, and an Infinity remainder yields the correspondingly
signed infinity; the spec examples and the non-leading and multiple compass
letter cases evaluate accordingly. -/
theorem parseCoordinate_contract :
    (∀ n : JNum, parseCoordinate (.num n) = some n) ∧
    parseCoordinate .undef = none ∧
    parseCoordinate .other = none ∧
    (∀ s : String, (stripNSEW s).data =
      s.data.filter fun c => decide (c ∉ (['N', 'S', 'E', 'W'] : List Char))) ∧
    (∀ (s : String) (v : Rat), parseFloat (stripNSEW s) = .val v →
      parseCoordinate (.str s) =
        some (.val (if 'S' ∈ s.data ∨ 'W' ∈ s.data then -v else v))) ∧
    (∀ s : String, parseFloat (stripNSEW s) = .nan →
      parseCoordinate (.str s) = some .nan) ∧
    (∀ (s : String) (b : Bool), parseFloat (stripNSEW s) = .inf b →
      parseCoordinate (.str s) =
        some (.inf (if 'S' ∈ s.data ∨ 'W' ∈ s.data then !b else b))) ∧
    (parseCoordinate (.str "N38.3") = some (.val (mkRat 383 10)) ∧
     parseCoordinate (.str "S38.3") = some (.val (mkRat (-383) 10)) ∧
     parseCoordinate (.str "E141.7") = some (.val (mkRat 1417 10)) ∧
     parseCoordinate (.str "W141.7") = some (.val (mkRat (-1417) 10)) ∧
     parseCoordinate (.str "38.3") = some (.val (mkRat 383 10)) ∧
     parseCoordinate (.str "38.3W") = some (.val (mkRat (-383) 10)) ∧
     parseCoordinate (.str "N38.3W") = some (.val (mkRat (-383) 10))) := by
  refine ⟨fun n => rfl, rfl, rfl, ?_, ?_, ?_, ?_, by decide⟩
  · intro s
    refine List.filter_congr fun c _ => ?_
    by_cases h1 : c = 'N' <;> by_cases h2 : c = 'S' <;> by_cases h3 : c = 'E' <;>
      by_cases h4 : c = 'W' <;> simp [h1, h2, h3, h4]
  · intro s v hv
    simp only [parseCoordinate, hv]
    cases hb : (s.data.contains 'S' || s.data.contains 'W') with
    | false =>
      simp only [Bool.false_eq_true, if_false]
      simp at hb
      rw [if_neg (by tauto)]
    | true =>
      simp at hb
      rw [if_pos hb]
      simp [JNum.neg]
  · intro s h
    simp only [parseCoordinate, h]
    cases hb : (s.data.contains 'S' || s.data.contains 'W') <;> simp [JNum.neg]
  · intro s b hv
    simp only [parseCoordinate, hv]
    cases hb : (s.data.contains 'S' || s.data.contains 'W') with
    | false =>
      simp only [Bool.false_eq_true, if_false]
      simp at hb
      rw [if_neg (by tauto)]
    | true =>
      simp at hb
      rw [if_pos hb]
      simp [JNum.neg]

/-- Witness for the amended C2 at the string with a trailing W. -/
theorem parseCoordinate_contract_witness :
    parseCoordinate (.str "38.3W") =
      some (.val (if 'S' ∈ ("38.3W").data ∨ 'W' ∈ ("38.3W").data
        then -(mkRat 383 10) else mkRat 383 10)) :=
  parseCoordinate_contract.2.2.2.2.1 "38.3W" (mkRat 383 10) (by decide)
